import Mathlib

/-!
# Verification of the polyapp core against its specification

Shallow embedding of the polyapp repository's core components:

* the free-zone allocator (`BufferZone`, linked-list `Insert` / `Aquire`
  from `polycommon.go`), modelled as functions on `List BufferZone`
  (the Go linked list `BufferZoneLL`, head first; the empty list models
  a free list with no zones);
* the vertex layout codec (`VertexFlags` and its offset/size/stride
  methods from `polygraphics.go`), modelled on `Nat` with bitwise masks;
* the shape tessellator's update/add operations (`polygraphics.go`),
  modelled for their error flow, dimension validation and the sequence
  of per-vertex writes they perform through the backend boundary.

Machine integers (`uint32` in Go) are modelled as `Nat` with explicit
`% 2^32` at the operations where Go wraps (subtraction in `Len`,
addition in `Aquire`).
-/

/-- `2^32`, the modulus of Go's `uint32` arithmetic. -/
def U32 : Nat := 4294967296

/-- `BufferZone` from polycommon.go: a half-open range `[Start, End)`
inside a linear buffer.  Go stores `uint32` fields; we use `Nat` and
keep values below `U32` by hypothesis where it matters. -/
structure BufferZone where
  Start : Nat
  End : Nat
deriving DecidableEq, Repr

/-- `BufferZone.Len` from polycommon.go: `End - Start` in `uint32`
arithmetic, i.e. `(End + 2^32 - Start) % 2^32` for representable
fields. -/
def BufferZone.Len (b : BufferZone) : Nat :=
  (b.End + U32 - b.Start) % U32

/-- Modelled from the spec: `CombineRangesIfOverlap` lives in the
external `github.com/gabe-lee/genmath` dependency, which is not part of
this repository's sources.  Per the spec, `release` "merges with any
overlapping or adjacent predecessor and successor zone", so the
combination succeeds exactly when the two half-open ranges overlap or
are adjacent (`s1 ≤ e2 ∧ s2 ≤ e1`) and then yields the spanning range
`[min s1 s2, max e1 e2)`. -/
def CombineRangesIfOverlap (s1 e1 s2 e2 : Nat) : Bool × Nat × Nat :=
  if s1 ≤ e2 ∧ s2 ≤ e1 then (true, min s1 s2, max e1 e2)
  else (false, s1, e1)

/-- Second phase of `BufferZoneLL.Insert` (polycommon.go lines 91–98):
after the first phase left the current node as `b` with successor chain
`next`, combine `b` with its successor once, splicing the successor out
of the list on a merge. -/
def BufferZoneLL.InsertFix (b : BufferZone) : List BufferZone → List BufferZone
  | [] => [b]
  | c :: rest =>
    let c2 := CombineRangesIfOverlap b.Start b.End c.Start c.End
    if c2.1 then ⟨c2.2.1, c2.2.2⟩ :: rest
    else b :: c :: rest

/-- `BufferZoneLL.Insert` from polycommon.go (lines 81–99), on the list
of zones (`head :: rest` models the node and its `Next` chain; `[]`
models a `nil` pointer, on which Go never calls the method — inserting
into it yields the one-node list, matching the `b.Next =
&BufferZoneLL{...}` append).  Faithfully mirrors the Go control flow:
merge `zone` into the first node whose range combines with it,
otherwise recurse into the successor, otherwise append at the tail;
then (lines 91–98, `InsertFix`) combine the current node with its
possibly-updated successor once. -/
def BufferZoneLL.Insert (zone : BufferZone) : List BufferZone → List BufferZone
  | [] => [zone]
  | b :: next =>
    let c1 := CombineRangesIfOverlap b.Start b.End zone.Start zone.End
    if c1.1 then BufferZoneLL.InsertFix ⟨c1.2.1, c1.2.2⟩ next
    else if next.isEmpty then BufferZoneLL.InsertFix b [zone]
    else BufferZoneLL.InsertFix b (BufferZoneLL.Insert zone next)

/-- `BufferZoneLL.Aquire` from polycommon.go.  The Go method threads a
`last *BufferZoneLL` pointer which is `nil` exactly on the head node;
the `first` flag models `last == nil`.  Returns the carved zone and the
updated list. -/
def BufferZoneLL.AquireAux (zoneSize : Nat) (first : Bool) :
    List BufferZone → BufferZone × List BufferZone
  | [] => (⟨0, 0⟩, [])
  | b :: next =>
    if zoneSize ≤ b.Len then
      if (⟨(b.Start + zoneSize) % U32, b.End⟩ : BufferZone).Len = 0 ∧
          first = false then
        (⟨b.Start, (b.Start + zoneSize) % U32⟩, next)
      else
        (⟨b.Start, (b.Start + zoneSize) % U32⟩,
         ⟨(b.Start + zoneSize) % U32, b.End⟩ :: next)
    else
      match next with
      | [] => (⟨0, 0⟩, [b])
      | c :: rest =>
        ((BufferZoneLL.AquireAux zoneSize false (c :: rest)).1,
         b :: (BufferZoneLL.AquireAux zoneSize false (c :: rest)).2)

/-- `Aquire` as called from the outside: `b.Aquire(size, nil)`. -/
def BufferZoneLL.Aquire (zoneSize : Nat) (l : List BufferZone) :
    BufferZone × List BufferZone :=
  BufferZoneLL.AquireAux zoneSize true l

/-- Two zones overlap or are adjacent (as half-open ranges). -/
def BufferZone.Touch (a b : BufferZone) : Prop :=
  a.Start ≤ b.End ∧ b.Start ≤ a.End

instance (a b : BufferZone) : Decidable (a.Touch b) := by
  unfold BufferZone.Touch; infer_instance

/-- A point lies in a zone. -/
def BufferZone.Mem (p : Nat) (z : BufferZone) : Prop :=
  z.Start ≤ p ∧ p < z.End

instance (p : Nat) (z : BufferZone) : Decidable (BufferZone.Mem p z) := by
  unfold BufferZone.Mem
  infer_instance

/-- A point lies in some zone of the list (the free coverage). -/
def BufferZoneLL.Cover (l : List BufferZone) (p : Nat) : Prop :=
  ∃ z ∈ l, BufferZone.Mem p z

/-- Two zones are disjoint as sets of buffer positions. -/
def BufferZone.ZDisj (a b : BufferZone) : Prop :=
  ∀ p, ¬(BufferZone.Mem p a ∧ BufferZone.Mem p b)

/-- Strict separation: `a` ends strictly before `b` starts.  A list
pairwise ordered by `Sep` is exactly one that is sorted by start,
pairwise disjoint and maximally coalesced (no two zones overlap or
touch), for well-formed zones. -/
def BufferZone.Sep (a b : BufferZone) : Prop :=
  a.End < b.Start

instance : DecidableRel BufferZone.Sep := fun a b => by
  unfold BufferZone.Sep
  infer_instance

/-! ## Basic lemmas about the allocator model -/

theorem BufferZone.Len_eq (b : BufferZone) (h1 : b.Start ≤ b.End)
    (h2 : b.End < U32) : b.Len = b.End - b.Start := by
  have hrw : b.End + U32 - b.Start = (b.End - b.Start) + U32 := by omega
  have hlt : b.End - b.Start < U32 := by omega
  rw [BufferZone.Len, hrw, Nat.add_mod_right, Nat.mod_eq_of_lt hlt]

theorem CombineRangesIfOverlap_of_touch (a z : BufferZone)
    (h : a.Touch z) :
    CombineRangesIfOverlap a.Start a.End z.Start z.End =
      (true, min a.Start z.Start, max a.End z.End) := by
  have h' : a.Start ≤ z.End ∧ z.Start ≤ a.End := h
  rw [CombineRangesIfOverlap, if_pos h']

theorem CombineRangesIfOverlap_of_not_touch (a z : BufferZone)
    (h : ¬ a.Touch z) :
    CombineRangesIfOverlap a.Start a.End z.Start z.End =
      (false, a.Start, a.End) := by
  have h' : ¬(a.Start ≤ z.End ∧ z.Start ≤ a.End) := h
  rw [CombineRangesIfOverlap, if_neg h']

theorem BufferZone.sep_not_touch {a b : BufferZone} (h : a.Sep b) :
    ¬ a.Touch b := by
  simp only [BufferZone.Sep, BufferZone.Touch] at *
  omega

theorem BufferZoneLL.InsertFix_nil (b : BufferZone) :
    BufferZoneLL.InsertFix b [] = [b] := rfl

theorem BufferZoneLL.InsertFix_touch {b c : BufferZone}
    (rest : List BufferZone) (h : b.Touch c) :
    BufferZoneLL.InsertFix b (c :: rest) =
      (⟨min b.Start c.Start, max b.End c.End⟩ : BufferZone) :: rest := by
  simp [BufferZoneLL.InsertFix, CombineRangesIfOverlap_of_touch b c h]

theorem BufferZoneLL.InsertFix_not_touch {b c : BufferZone}
    (rest : List BufferZone) (h : ¬ b.Touch c) :
    BufferZoneLL.InsertFix b (c :: rest) = b :: c :: rest := by
  simp [BufferZoneLL.InsertFix,
    CombineRangesIfOverlap_of_not_touch b c h]

theorem BufferZoneLL.Insert_nil (z : BufferZone) :
    BufferZoneLL.Insert z [] = [z] := rfl

theorem BufferZoneLL.Insert_cons_touch {b z : BufferZone}
    (next : List BufferZone) (h : b.Touch z) :
    BufferZoneLL.Insert z (b :: next) =
      BufferZoneLL.InsertFix ⟨min b.Start z.Start, max b.End z.End⟩ next := by
  simp [BufferZoneLL.Insert, CombineRangesIfOverlap_of_touch b z h]

theorem BufferZoneLL.Insert_single_not_touch {b z : BufferZone}
    (h : ¬ b.Touch z) :
    BufferZoneLL.Insert z [b] = [b, z] := by
  simp [BufferZoneLL.Insert, CombineRangesIfOverlap_of_not_touch b z h,
    BufferZoneLL.InsertFix_not_touch [] h]

theorem BufferZoneLL.Insert_cons_not_touch {b z : BufferZone}
    (c : BufferZone) (rest : List BufferZone) (h : ¬ b.Touch z) :
    BufferZoneLL.Insert z (b :: c :: rest) =
      BufferZoneLL.InsertFix b (BufferZoneLL.Insert z (c :: rest)) := by
  simp [BufferZoneLL.Insert, CombineRangesIfOverlap_of_not_touch b z h]

theorem BufferZoneLL.InsertFix_ne_nil (b : BufferZone)
    (l : List BufferZone) : BufferZoneLL.InsertFix b l ≠ [] := by
  cases l with
  | nil => simp [BufferZoneLL.InsertFix]
  | cons c rest =>
    simp only [BufferZoneLL.InsertFix]
    split <;> simp

theorem BufferZoneLL.Insert_ne_nil (z : BufferZone)
    (l : List BufferZone) : BufferZoneLL.Insert z l ≠ [] := by
  cases l with
  | nil => simp [BufferZoneLL.Insert_nil]
  | cons b next =>
    simp only [BufferZoneLL.Insert]
    split
    · exact BufferZoneLL.InsertFix_ne_nil _ _
    · split <;> exact BufferZoneLL.InsertFix_ne_nil _ _

theorem BufferZoneLL.Cover_nil (p : Nat) :
    ¬ BufferZoneLL.Cover [] p := by
  simp [BufferZoneLL.Cover]

theorem BufferZoneLL.Cover_cons (x : BufferZone) (xs : List BufferZone)
    (p : Nat) :
    BufferZoneLL.Cover (x :: xs) p ↔
      BufferZone.Mem p x ∨ BufferZoneLL.Cover xs p := by
  simp [BufferZoneLL.Cover]


/-- Propositional shuffle used for the coverage equation when the head
zone absorbed the released zone. -/
theorem BufferZoneLL.cover_shuffle2 {M B Z R : Prop} (h : M ↔ B ∨ Z) :
    M ∨ R ↔ (B ∨ R) ∨ Z := by
  tauto

/-- Propositional shuffle for the coverage equation in the three-way
merge case. -/
theorem BufferZoneLL.cover_shuffle3 {M B C Z R : Prop} (h : M ↔ B ∨ C ∨ Z) :
    M ∨ R ↔ (B ∨ C ∨ R) ∨ Z := by
  tauto

/-- Propositional shuffle for the coverage equation when the released
zone is appended at the tail. -/
theorem BufferZoneLL.cover_shuffleA {B Z R : Prop} :
    B ∨ Z ∨ R ↔ (B ∨ R) ∨ Z := by
  tauto

/-- Number of zones in the list that overlap or touch `z`. -/
def BufferZoneLL.touchCount (l : List BufferZone) (z : BufferZone) : Nat :=
  l.countP (fun w => decide (w.Touch z))

/-- Main structural lemma for `Insert` on a sorted, disjoint, maximally
coalesced free list of nonempty zones, for a released nonempty zone
that overlaps or touches at most two zones of the list (on such a list
the touched zones are necessarily consecutive): the result consists of
nonempty zones, no two of which overlap or touch, and its coverage is
the old coverage united with the released zone.  The bound of two is
exactly what the code's single successor-merge pass can absorb; a
released zone spanning three or more list zones leaves overlapping
zones behind (see the C1 counterexample).  The last conjunct is the
induction workhorse: any zone strictly separated from the whole list
and not touching `z` touches nothing in the result. -/
theorem BufferZoneLL.Insert_spec (z : BufferZone) (hz : z.Start < z.End) :
    ∀ l : List BufferZone,
      l.Pairwise BufferZone.Sep →
      (∀ w ∈ l, w.Start < w.End) →
      BufferZoneLL.touchCount l z ≤ 2 →
      (∀ w ∈ BufferZoneLL.Insert z l, w.Start < w.End) ∧
      (BufferZoneLL.Insert z l).Pairwise (fun a b => ¬ a.Touch b) ∧
      (∀ p, BufferZoneLL.Cover (BufferZoneLL.Insert z l) p ↔
        BufferZoneLL.Cover l p ∨ BufferZone.Mem p z) ∧
      (∀ B : BufferZone, B.Start ≤ B.End → (∀ u ∈ l, B.Sep u) →
        ¬ B.Touch z → ∀ w ∈ BufferZoneLL.Insert z l, ¬ B.Touch w) := by
  intro l
  induction l with
  | nil =>
    intro _ _ _
    rw [BufferZoneLL.Insert_nil]
    refine ⟨?_, ?_, ?_, ?_⟩
    · intro w hw
      rcases List.mem_singleton.mp hw with rfl
      exact hz
    · simp
    · intro p
      rw [BufferZoneLL.Cover_cons]
      simp [BufferZoneLL.Cover_nil]
    · intro B _ _ hBz w hw
      rcases List.mem_singleton.mp hw with rfl
      exact hBz
  | cons b next IH =>
    intro hp hwf hcnt
    have hp1 : ∀ u ∈ next, b.Sep u := (List.pairwise_cons.mp hp).1
    have hp2 : next.Pairwise BufferZone.Sep := (List.pairwise_cons.mp hp).2
    have hwb : b.Start < b.End := hwf b (List.mem_cons_self b next)
    have hcnt_next : BufferZoneLL.touchCount next z ≤ 2 := by
      unfold BufferZoneLL.touchCount at hcnt ⊢
      rw [List.countP_cons] at hcnt
      omega
    by_cases htz : b.Touch z
    · -- the released zone merges with the head node
      have htz1 : b.Start ≤ z.End := htz.1
      have htz2 : z.Start ≤ b.End := htz.2
      rw [BufferZoneLL.Insert_cons_touch next htz]
      cases next with
      | nil =>
        rw [BufferZoneLL.InsertFix_nil]
        refine ⟨?_, by simp, ?_, ?_⟩
        · intro w hw
          rcases List.mem_singleton.mp hw with rfl
          show min b.Start z.Start < max b.End z.End
          omega
        · intro p
          simp only [BufferZoneLL.Cover_cons]
          refine BufferZoneLL.cover_shuffle2 ?_
          simp only [BufferZone.Mem]
          omega
        · intro B hB1 hB2 hB3 w hw
          rcases List.mem_singleton.mp hw with rfl
          have hsb : B.End < b.Start := hB2 b (List.mem_cons_self b [])
          have hB3' : ¬ (B.Start ≤ z.End ∧ z.Start ≤ B.End) := hB3
          show ¬ (B.Start ≤ max b.End z.End ∧ min b.Start z.Start ≤ B.End)
          omega
      | cons c rest =>
        have hsbc : b.End < c.Start := hp1 c (List.mem_cons_self c rest)
        have hwc : c.Start < c.End :=
          hwf c (List.mem_cons_of_mem b (List.mem_cons_self c rest))
        have hscr : ∀ u ∈ rest, c.Sep u := (List.pairwise_cons.mp hp2).1
        have hpr : rest.Pairwise BufferZone.Sep :=
          (List.pairwise_cons.mp hp2).2
        by_cases hfc : (⟨min b.Start z.Start, max b.End z.End⟩ :
            BufferZone).Touch c
        · -- the successor merge of the fix pass fires, so `c` touches
          -- `z` as well; the two-zone budget is spent, hence nothing in
          -- `rest` touches `z`
          have hfc2 : c.Start ≤ max b.End z.End := hfc.2
          have hc1 : c.Start ≤ z.End := by omega
          have hc2 : z.Start ≤ c.End := by omega
          have hcz : c.Touch z := ⟨hc1, hc2⟩
          have hrest : ∀ d ∈ rest, ¬ d.Touch z := by
            intro d hd hdz
            have h3 : 0 < List.countP (fun w => decide (w.Touch z)) rest :=
              List.countP_pos_iff.mpr ⟨d, hd, decide_eq_true hdz⟩
            unfold BufferZoneLL.touchCount at hcnt
            rw [List.countP_cons, List.countP_cons] at hcnt
            simp only [decide_eq_true htz, decide_eq_true hcz,
              if_true] at hcnt
            omega
          rw [BufferZoneLL.InsertFix_touch rest hfc]
          refine ⟨?_, ?_, ?_, ?_⟩
          · intro w hw
            rcases List.mem_cons.mp hw with rfl | hw
            · show min (⟨min b.Start z.Start, max b.End z.End⟩ :
                  BufferZone).Start c.Start <
                max (⟨min b.Start z.Start, max b.End z.End⟩ :
                  BufferZone).End c.End
              dsimp only
              omega
            · exact hwf w
                (List.mem_cons_of_mem b (List.mem_cons_of_mem c hw))
          · rw [List.pairwise_cons]
            refine ⟨?_, List.Pairwise.imp
              (fun h => BufferZone.sep_not_touch h) hpr⟩
            intro u hu
            have hsu : c.End < u.Start := hscr u hu
            have hwu : u.Start < u.End :=
              hwf u (List.mem_cons_of_mem b (List.mem_cons_of_mem c hu))
            have hdu : ¬ (u.Start ≤ z.End ∧ z.Start ≤ u.End) := hrest u hu
            show ¬ ((⟨min (⟨min b.Start z.Start, max b.End z.End⟩ :
                BufferZone).Start c.Start, max (⟨min b.Start z.Start,
                max b.End z.End⟩ : BufferZone).End c.End⟩ :
                BufferZone).Touch u)
            simp only [BufferZone.Touch]
            omega
          · intro p
            simp only [BufferZoneLL.Cover_cons]
            refine BufferZoneLL.cover_shuffle3 ?_
            simp only [BufferZone.Mem]
            omega
          · intro B hB1 hB2 hB3 w hw
            have hsb : B.End < b.Start :=
              hB2 b (List.mem_cons_self b (c :: rest))
            rcases List.mem_cons.mp hw with rfl | hw
            · have hB3' : ¬ (B.Start ≤ z.End ∧ z.Start ≤ B.End) := hB3
              show ¬ (B.Start ≤ max (⟨min b.Start z.Start,
                  max b.End z.End⟩ : BufferZone).End c.End ∧
                min (⟨min b.Start z.Start, max b.End z.End⟩ :
                  BufferZone).Start c.Start ≤ B.End)
              dsimp only
              omega
            · exact BufferZone.sep_not_touch (hB2 w
                (List.mem_cons_of_mem b (List.mem_cons_of_mem c hw)))
        · -- the fix pass does not fire: `z` stays clear of `c`
          have hzc : z.End < c.Start := by
            have hfc' : ¬ (min b.Start z.Start ≤ c.End ∧
                c.Start ≤ max b.End z.End) := hfc
            omega
          rw [BufferZoneLL.InsertFix_not_touch rest hfc]
          refine ⟨?_, ?_, ?_, ?_⟩
          · intro w hw
            rcases List.mem_cons.mp hw with rfl | hw
            · show min b.Start z.Start < max b.End z.End
              omega
            · exact hwf w (List.mem_cons_of_mem b hw)
          · rw [List.pairwise_cons]
            refine ⟨?_, List.Pairwise.imp
              (fun h => BufferZone.sep_not_touch h) hp2⟩
            intro u hu
            rcases List.mem_cons.mp hu with rfl | hu
            · exact hfc
            · have hsu : c.End < u.Start := hscr u hu
              have hwu : u.Start < u.End :=
                hwf u (List.mem_cons_of_mem b (List.mem_cons_of_mem c hu))
              show ¬ (min b.Start z.Start ≤ u.End ∧
                u.Start ≤ max b.End z.End)
              omega
          · intro p
            simp only [BufferZoneLL.Cover_cons]
            refine BufferZoneLL.cover_shuffle2 ?_
            simp only [BufferZone.Mem]
            omega
          · intro B hB1 hB2 hB3 w hw
            have hsb : B.End < b.Start :=
              hB2 b (List.mem_cons_self b (c :: rest))
            rcases List.mem_cons.mp hw with rfl | hw
            · have hB3' : ¬ (B.Start ≤ z.End ∧ z.Start ≤ B.End) := hB3
              show ¬ (B.Start ≤ max b.End z.End ∧
                min b.Start z.Start ≤ B.End)
              omega
            · exact BufferZone.sep_not_touch
                (hB2 w (List.mem_cons_of_mem b hw))
    · -- the released zone does not touch the head node
      cases next with
      | nil =>
        rw [BufferZoneLL.Insert_single_not_touch htz]
        refine ⟨?_, ?_, ?_, ?_⟩
        · intro w hw
          rcases List.mem_cons.mp hw with rfl | hw
          · exact hwb
          · rcases List.mem_singleton.mp hw with rfl
            exact hz
        · rw [List.pairwise_cons]
          refine ⟨?_, by simp⟩
          intro u hu
          rcases List.mem_singleton.mp hu with rfl
          exact htz
        · intro p
          simp only [BufferZoneLL.Cover_cons]
          exact BufferZoneLL.cover_shuffleA
        · intro B hB1 hB2 hB3 w hw
          rcases List.mem_cons.mp hw with rfl | hw
          · exact BufferZone.sep_not_touch (hB2 w (List.mem_cons_self w []))
          · rcases List.mem_singleton.mp hw with rfl
            exact hB3
      | cons c rest =>
        have IH' := IH hp2
          (fun w hw => hwf w (List.mem_cons_of_mem b hw)) hcnt_next
        obtain ⟨IH1, IH2, IH3, IH4⟩ := IH'
        have hnb : ∀ w ∈ BufferZoneLL.Insert z (c :: rest), ¬ b.Touch w :=
          IH4 b (Nat.le_of_lt hwb) hp1 htz
        obtain ⟨w₀, next'', hnext'⟩ :
            ∃ w₀ next'', BufferZoneLL.Insert z (c :: rest) = w₀ :: next'' :=
          List.exists_cons_of_ne_nil (BufferZoneLL.Insert_ne_nil z (c :: rest))
        have hnbw : ¬ b.Touch w₀ := by
          apply hnb
          rw [hnext']
          exact List.mem_cons_self w₀ next''
        rw [BufferZoneLL.Insert_cons_not_touch c rest htz, hnext',
          BufferZoneLL.InsertFix_not_touch next'' hnbw, ← hnext']
        refine ⟨?_, ?_, ?_, ?_⟩
        · intro w hw
          rcases List.mem_cons.mp hw with rfl | hw
          · exact hwb
          · exact IH1 w hw
        · rw [List.pairwise_cons]
          exact ⟨hnb, IH2⟩
        · intro p
          rw [BufferZoneLL.Cover_cons, BufferZoneLL.Cover_cons, IH3 p]
          exact (or_assoc).symm
        · intro B hB1 hB2 hB3 w hw
          rcases List.mem_cons.mp hw with rfl | hw
          · exact BufferZone.sep_not_touch
              (hB2 w (List.mem_cons_self w (c :: rest)))
          · exact IH4 B hB1
              (fun u hu => hB2 u (List.mem_cons_of_mem b hu)) hB3 w hw

/-! ## Unfolding lemmas for `AquireAux` -/

theorem BufferZoneLL.AquireAux_nil (s : Nat) (f : Bool) :
    BufferZoneLL.AquireAux s f [] = (⟨0, 0⟩, []) := rfl

theorem BufferZoneLL.AquireAux_fit {s : Nat} {b : BufferZone} (f : Bool)
    (next : List BufferZone) (h : s ≤ b.Len) :
    BufferZoneLL.AquireAux s f (b :: next) =
      if (⟨(b.Start + s) % U32, b.End⟩ : BufferZone).Len = 0 ∧ f = false then
        (⟨b.Start, (b.Start + s) % U32⟩, next)
      else
        (⟨b.Start, (b.Start + s) % U32⟩,
         ⟨(b.Start + s) % U32, b.End⟩ :: next) := by
  rw [BufferZoneLL.AquireAux.eq_def]
  dsimp only
  rw [if_pos h]

theorem BufferZoneLL.AquireAux_nofit_nil {s : Nat} {b : BufferZone}
    (f : Bool) (h : ¬ s ≤ b.Len) :
    BufferZoneLL.AquireAux s f [b] = (⟨0, 0⟩, [b]) := by
  rw [BufferZoneLL.AquireAux.eq_def]
  dsimp only
  rw [if_neg h]

theorem BufferZoneLL.AquireAux_nofit_step {s : Nat} {b : BufferZone}
    (f : Bool) {next : List BufferZone} (h : ¬ s ≤ b.Len) (hne : next ≠ []) :
    BufferZoneLL.AquireAux s f (b :: next) =
      ((BufferZoneLL.AquireAux s false next).1,
       b :: (BufferZoneLL.AquireAux s false next).2) := by
  obtain ⟨c, rest, rfl⟩ := List.exists_cons_of_ne_nil hne
  rw [BufferZoneLL.AquireAux.eq_def]
  dsimp only
  rw [if_neg h]

/-- When no zone of the list is large enough, `AquireAux` returns the
zero-length sentinel and leaves the list unchanged. -/
theorem BufferZoneLL.AquireAux_exhausted (s : Nat) :
    ∀ (l : List BufferZone) (f : Bool), (∀ z ∈ l, z.Len < s) →
      BufferZoneLL.AquireAux s f l = (⟨0, 0⟩, l) := by
  intro l
  induction l with
  | nil => intro f _; rfl
  | cons b next IH =>
    intro f hsmall
    have hb : ¬ s ≤ b.Len := by
      have := hsmall b (List.mem_cons_self b next)
      omega
    cases next with
    | nil => exact BufferZoneLL.AquireAux_nofit_nil f hb
    | cons c rest =>
      rw [BufferZoneLL.AquireAux_nofit_step f hb (by simp),
        IH false (fun z hz => hsmall z (List.mem_cons_of_mem b hz))]

/-- First-fit characterization of `AquireAux`: with a prefix of
too-small zones before the first fitting zone `b`, the call carves
`[b.Start, b.Start + s)` off the front of `b`; the shrunk zone is
spliced out exactly when it became empty and is not the first list
entry. -/
theorem BufferZoneLL.AquireAux_first_fit :
    ∀ (l₁ : List BufferZone) (b : BufferZone) (l₂ : List BufferZone)
      (s : Nat) (f : Bool),
      (∀ z ∈ l₁, z.Len < s) → s ≤ b.Len → b.Start ≤ b.End → b.End < U32 →
      BufferZoneLL.AquireAux s f (l₁ ++ b :: l₂) =
        (⟨b.Start, b.Start + s⟩,
         if b.Start + s = b.End ∧ (f = false ∨ l₁ ≠ []) then l₁ ++ l₂
         else l₁ ++ ⟨b.Start + s, b.End⟩ :: l₂) := by
  intro l₁
  induction l₁ with
  | nil =>
    intro b l₂ s f _ hfit hwf1 hwf2
    have hlen : b.Len = b.End - b.Start := BufferZone.Len_eq b hwf1 hwf2
    have hEle : b.Start + s ≤ b.End := by omega
    have hmod : (b.Start + s) % U32 = b.Start + s :=
      Nat.mod_eq_of_lt (by omega)
    rw [List.nil_append, BufferZoneLL.AquireAux_fit f l₂ hfit, hmod]
    have hlen2 : (⟨b.Start + s, b.End⟩ : BufferZone).Len
        = b.End - (b.Start + s) :=
      BufferZone.Len_eq _ hEle hwf2
    by_cases hfull : b.Start + s = b.End
    · by_cases hf : f = false
      · rw [if_pos ⟨by rw [hlen2]; omega, hf⟩, if_pos ⟨hfull, Or.inl hf⟩,
          List.nil_append]
      · rw [if_neg (by tauto), if_neg (by tauto), List.nil_append]
    · rw [if_neg (by rw [hlen2]; intro hc; exact hfull (by omega)),
        if_neg (by tauto), List.nil_append]
  | cons a l₁ IH =>
    intro b l₂ s f hsmall hfit hwf1 hwf2
    have ha : ¬ s ≤ a.Len := by
      have := hsmall a (List.mem_cons_self a l₁)
      omega
    rw [List.cons_append,
      BufferZoneLL.AquireAux_nofit_step f ha (by simp),
      IH b l₂ s false
        (fun z hz => hsmall z (List.mem_cons_of_mem a hz)) hfit hwf1 hwf2]
    by_cases hfull : b.Start + s = b.End
    · rw [if_pos ⟨hfull, Or.inl rfl⟩, if_pos ⟨hfull, Or.inr (by simp)⟩,
        List.cons_append]
    · rw [if_neg (by tauto), if_neg (by tauto), List.cons_append]

/-- When nothing in the list touches the released zone, `Insert`
appends it at the tail of the list (not at its sorted position). -/
theorem BufferZoneLL.Insert_append_of_not_touch (z : BufferZone) :
    ∀ l : List BufferZone, l.Pairwise BufferZone.Sep →
      (∀ w ∈ l, ¬ w.Touch z) →
      BufferZoneLL.Insert z l = l ++ [z] := by
  intro l
  induction l with
  | nil => intro _ _; rfl
  | cons b next IH =>
    intro hp hnt
    have htz : ¬ b.Touch z := hnt b (List.mem_cons_self b next)
    cases next with
    | nil => rw [BufferZoneLL.Insert_single_not_touch htz]; rfl
    | cons c rest =>
      have hbc : ¬ b.Touch c :=
        BufferZone.sep_not_touch
          ((List.pairwise_cons.mp hp).1 c (List.mem_cons_self c rest))
      rw [BufferZoneLL.Insert_cons_not_touch c rest htz,
        IH (List.pairwise_cons.mp hp).2
          (fun w hw => hnt w (List.mem_cons_of_mem b hw)),
        List.cons_append, BufferZoneLL.InsertFix_not_touch _ hbc]
      simp

/-- Releasing two touching zones into an empty free list leaves exactly
one zone spanning from the minimum start to the maximum end. -/
theorem BufferZoneLL.Insert_pair_empty (z1 z2 : BufferZone)
    (h : z1.Touch z2) :
    BufferZoneLL.Insert z2 (BufferZoneLL.Insert z1 []) =
      [⟨min z1.Start z2.Start, max z1.End z2.End⟩] := by
  rw [BufferZoneLL.Insert_nil, BufferZoneLL.Insert_cons_touch [] h,
    BufferZoneLL.InsertFix_nil]

/-- One `Aquire` call on a well-formed, pairwise-disjoint list: the
updated list is again well-formed and pairwise disjoint, the returned
zone was free before the call and is free no longer, and the free
coverage only shrinks. -/
theorem BufferZoneLL.AquireAux_step (s : Nat) :
    ∀ (l : List BufferZone) (f : Bool),
      (∀ z ∈ l, z.Start ≤ z.End ∧ z.End < U32) →
      l.Pairwise BufferZone.ZDisj →
      (∀ z ∈ (BufferZoneLL.AquireAux s f l).2,
        z.Start ≤ z.End ∧ z.End < U32) ∧
      ((BufferZoneLL.AquireAux s f l).2).Pairwise BufferZone.ZDisj ∧
      (∀ p, BufferZone.Mem p (BufferZoneLL.AquireAux s f l).1 →
        BufferZoneLL.Cover l p) ∧
      (∀ p, BufferZone.Mem p (BufferZoneLL.AquireAux s f l).1 →
        ¬ BufferZoneLL.Cover (BufferZoneLL.AquireAux s f l).2 p) ∧
      (∀ p, BufferZoneLL.Cover (BufferZoneLL.AquireAux s f l).2 p →
        BufferZoneLL.Cover l p) := by
  intro l
  induction l with
  | nil =>
    intro f _ _
    rw [BufferZoneLL.AquireAux_nil]
    refine ⟨by simp, by simp, ?_, ?_, ?_⟩
    · intro p hp
      simp only [BufferZone.Mem] at hp
      omega
    · intro p hp
      simp only [BufferZone.Mem] at hp
      omega
    · intro p hp
      exact absurd hp (BufferZoneLL.Cover_nil p)
  | cons b next IH =>
    intro f hwf hdis
    have hwb := hwf b (List.mem_cons_self b next)
    have hd1 : ∀ u ∈ next, b.ZDisj u := (List.pairwise_cons.mp hdis).1
    have hd2 : next.Pairwise BufferZone.ZDisj := (List.pairwise_cons.mp hdis).2
    by_cases hfit : s ≤ b.Len
    · -- the head zone is large enough: carve from its start
      have hlen : b.Len = b.End - b.Start := BufferZone.Len_eq b hwb.1 hwb.2
      have hEle : b.Start + s ≤ b.End := by omega
      have hmod : (b.Start + s) % U32 = b.Start + s :=
        Nat.mod_eq_of_lt (by omega)
      have hzb : ∀ p, BufferZone.Mem p ⟨b.Start, b.Start + s⟩ →
          BufferZone.Mem p b := by
        intro p hp
        simp only [BufferZone.Mem] at *
        omega
      rw [BufferZoneLL.AquireAux_fit f next hfit, hmod]
      by_cases hsp : (⟨b.Start + s, b.End⟩ : BufferZone).Len = 0 ∧ f = false
      · -- the shrunk zone became empty and is spliced out
        rw [if_pos hsp]
        have hfull : b.Start + s = b.End := by
          have := BufferZone.Len_eq ⟨b.Start + s, b.End⟩ hEle hwb.2
          have h0 := hsp.1
          simp only [this] at h0
          omega
        refine ⟨fun z hz => hwf z (List.mem_cons_of_mem b hz), hd2,
          ?_, ?_, ?_⟩
        · intro p hp
          exact (BufferZoneLL.Cover_cons b next p).mpr (Or.inl (hzb p hp))
        · intro p hp hc
          obtain ⟨u, hu, hpu⟩ := hc
          exact hd1 u hu p ⟨hzb p hp, hpu⟩
        · intro p hp
          obtain ⟨u, hu, hpu⟩ := hp
          exact ⟨u, List.mem_cons_of_mem b hu, hpu⟩
      · -- the shrunk zone stays in place
        rw [if_neg hsp]
        refine ⟨?_, ?_, ?_, ?_, ?_⟩
        · intro z hz
          rcases List.mem_cons.mp hz with rfl | hz
          · exact ⟨hEle, hwb.2⟩
          · exact hwf z (List.mem_cons_of_mem b hz)
        · rw [List.pairwise_cons]
          refine ⟨?_, hd2⟩
          intro u hu p hpu
          refine hd1 u hu p ⟨?_, hpu.2⟩
          have := hpu.1
          simp only [BufferZone.Mem] at *
          omega
        · intro p hp
          exact (BufferZoneLL.Cover_cons b next p).mpr (Or.inl (hzb p hp))
        · intro p hp hc
          rcases (BufferZoneLL.Cover_cons _ next p).mp hc with hm | hc
          · simp only [BufferZone.Mem] at hp hm
            omega
          · obtain ⟨u, hu, hpu⟩ := hc
            exact hd1 u hu p ⟨hzb p hp, hpu⟩
        · intro p hp
          rcases (BufferZoneLL.Cover_cons _ next p).mp hp with hm | hc
          · refine (BufferZoneLL.Cover_cons b next p).mpr (Or.inl ?_)
            simp only [BufferZone.Mem] at *
            omega
          · obtain ⟨u, hu, hpu⟩ := hc
            exact ⟨u, List.mem_cons_of_mem b hu, hpu⟩
    · -- the head zone is too small
      cases next with
      | nil =>
        rw [BufferZoneLL.AquireAux_nofit_nil f hfit]
        refine ⟨fun z hz => hwf z hz, hdis, ?_, ?_, fun p hp => hp⟩
        · intro p hp
          simp only [BufferZone.Mem] at hp
          omega
        · intro p hp
          simp only [BufferZone.Mem] at hp
          omega
      | cons c rest =>
        rw [BufferZoneLL.AquireAux_nofit_step f hfit (by simp)]
        obtain ⟨IH1, IH2, IH3, IH4, IH5⟩ := IH false
          (fun z hz => hwf z (List.mem_cons_of_mem b hz)) hd2
        refine ⟨?_, ?_, ?_, ?_, ?_⟩
        · intro z hz
          rcases List.mem_cons.mp hz with rfl | hz
          · exact hwb
          · exact IH1 z hz
        · rw [List.pairwise_cons]
          refine ⟨?_, IH2⟩
          intro u hu p hpu
          obtain ⟨d, hd, hpd⟩ := IH5 p ⟨u, hu, hpu.2⟩
          exact hd1 d hd p ⟨hpu.1, hpd⟩
        · intro p hp
          obtain ⟨u, hu, hpu⟩ := IH3 p hp
          exact ⟨u, List.mem_cons_of_mem b hu, hpu⟩
        · intro p hp hc
          rcases (BufferZoneLL.Cover_cons b _ p).mp hc with hm | hc
          · obtain ⟨d, hd, hpd⟩ := IH3 p hp
            exact hd1 d hd p ⟨hm, hpd⟩
          · exact IH4 p hp hc
        · intro p hp
          rcases (BufferZoneLL.Cover_cons b _ p).mp hp with hm | hc
          · exact (BufferZoneLL.Cover_cons b _ p).mpr (Or.inl hm)
          · obtain ⟨u, hu, hpu⟩ := IH5 p hc
            exact ⟨u, List.mem_cons_of_mem b hu, hpu⟩

/-- A sequence of `Aquire` calls with no intervening `Insert`: returns
the list of carved zones together with the final free list. -/
def BufferZoneLL.AquireSeq : List Nat → List BufferZone →
    List BufferZone × List BufferZone
  | [], l => ([], l)
  | s :: ss, l =>
    ((BufferZoneLL.Aquire s l).1 ::
      (BufferZoneLL.AquireSeq ss (BufferZoneLL.Aquire s l).2).1,
     (BufferZoneLL.AquireSeq ss (BufferZoneLL.Aquire s l).2).2)

/-- The zones returned by a sequence of `Aquire` calls on a well-formed
pairwise-disjoint free list are pairwise disjoint, and each was free at
the start of the sequence. -/
theorem BufferZoneLL.AquireSeq_spec :
    ∀ (sizes : List Nat) (l : List BufferZone),
      (∀ z ∈ l, z.Start ≤ z.End ∧ z.End < U32) →
      l.Pairwise BufferZone.ZDisj →
      ((BufferZoneLL.AquireSeq sizes l).1).Pairwise BufferZone.ZDisj ∧
      (∀ w ∈ (BufferZoneLL.AquireSeq sizes l).1, ∀ p,
        BufferZone.Mem p w → BufferZoneLL.Cover l p) := by
  intro sizes
  induction sizes with
  | nil =>
    intro l _ _
    exact ⟨by simp [BufferZoneLL.AquireSeq], by simp [BufferZoneLL.AquireSeq]⟩
  | cons s ss IH =>
    intro l hwf hdis
    obtain ⟨S1, S2, S3, S4, S5⟩ :=
      BufferZoneLL.AquireAux_step s l true hwf hdis
    obtain ⟨P1, P2⟩ := IH (BufferZoneLL.Aquire s l).2 S1 S2
    simp only [BufferZoneLL.AquireSeq]
    refine ⟨?_, ?_⟩
    · rw [List.pairwise_cons]
      refine ⟨?_, P1⟩
      intro u hu p hpu
      exact S4 p hpu.1 (P2 u hu p hpu.2)
    · intro w hw p hpw
      rcases List.mem_cons.mp hw with rfl | hw
      · exact S3 p hpw
      · exact S5 p (P2 w hw p hpw)

/-! ## Claim theorems for the zone allocator -/

/-- C1 (counterexample): the claim is false as stated, in two ways.
(i) The free list `{[10,20)}` satisfies every hypothesis of the claim
(pairwise disjoint, sorted by start, maximally coalesced), and the
released zone `[0,5)` is a legitimate release (nonempty, disjoint from
all free space), yet `Insert` appends it at the tail, producing
`{[10,20), [0,5)}`, which is not sorted by start — `Insert` does not
place the zone at its sorted position.  (ii) Releasing `[5,17)`, which
spans three zones of the well-formed list `{[0,10), [12,14), [16,20)}`,
merges the head and absorbs `[12,14)` in the single successor-merge
pass, but leaves `{[0,17), [16,20)}` — two zones both containing
position 16 — so the result is neither pairwise disjoint nor maximally
coalesced: the fix pass runs only once per call. -/
theorem C1_release_counterexample :
    ([⟨10, 20⟩] : List BufferZone).Pairwise BufferZone.Sep ∧
    (∀ w ∈ ([⟨10, 20⟩] : List BufferZone), w.Start < w.End) ∧
    (⟨0, 5⟩ : BufferZone).Start < (⟨0, 5⟩ : BufferZone).End ∧
    (∀ w ∈ ([⟨10, 20⟩] : List BufferZone),
      (⟨0, 5⟩ : BufferZone).End ≤ w.Start ∨
        w.End ≤ (⟨0, 5⟩ : BufferZone).Start) ∧
    BufferZoneLL.Insert ⟨0, 5⟩ [⟨10, 20⟩] = [⟨10, 20⟩, ⟨0, 5⟩] ∧
    ¬ (BufferZoneLL.Insert ⟨0, 5⟩ [⟨10, 20⟩]).Pairwise
        (fun a b : BufferZone => a.Start ≤ b.Start) ∧
    ([⟨0, 10⟩, ⟨12, 14⟩, ⟨16, 20⟩] : List BufferZone).Pairwise
        BufferZone.Sep ∧
    (∀ w ∈ ([⟨0, 10⟩, ⟨12, 14⟩, ⟨16, 20⟩] : List BufferZone),
        w.Start < w.End) ∧
    (⟨5, 17⟩ : BufferZone).Start < (⟨5, 17⟩ : BufferZone).End ∧
    BufferZoneLL.Insert ⟨5, 17⟩ [⟨0, 10⟩, ⟨12, 14⟩, ⟨16, 20⟩] =
      [⟨0, 17⟩, ⟨16, 20⟩] ∧
    BufferZone.Mem 16 ⟨0, 17⟩ ∧ BufferZone.Mem 16 ⟨16, 20⟩ ∧
    ¬ (BufferZoneLL.Insert ⟨5, 17⟩ [⟨0, 10⟩, ⟨12, 14⟩, ⟨16, 20⟩]).Pairwise
        (fun a b : BufferZone => ¬ a.Touch b) := by
  refine ⟨?_, ?_, ?_, ?_, ?_, ?_, ?_, ?_, ?_, ?_, ?_, ?_, ?_⟩ <;> decide

/-- C1 (amended): for every free list whose zones are pairwise
disjoint, sorted by start, and maximally coalesced (`Pairwise Sep` over
nonempty zones), and every released nonempty zone that overlaps or
touches at most two zones of the list — the most the single
successor-merge pass can absorb, and on such a list the touched zones
are necessarily consecutive — `Insert` merges the zone with the
overlapping-or-adjacent zone it reaches first and with that zone's
successor in the same call (including the 3-way merge), so that
afterwards the list is again pairwise disjoint and maximally coalesced
(`Pairwise` non-touching) with coverage extended by exactly the
released zone; however, a zone touching no list entry is appended at
the tail, not at its sorted position, so sortedness by start is not
preserved in general, and a released zone spanning three or more zones
leaves overlapping zones behind (see the counterexample).  Releasing
two adjacent or overlapping zones into an empty free list leaves
exactly one zone spanning `min(starts)` to `max(ends)`. -/
theorem C1_release_amended :
    (∀ (l : List BufferZone) (z : BufferZone),
      l.Pairwise BufferZone.Sep →
      (∀ w ∈ l, w.Start < w.End) →
      z.Start < z.End →
      BufferZoneLL.touchCount l z ≤ 2 →
      (BufferZoneLL.Insert z l).Pairwise (fun a b => ¬ a.Touch b) ∧
      (∀ w ∈ BufferZoneLL.Insert z l, w.Start < w.End) ∧
      (∀ p, BufferZoneLL.Cover (BufferZoneLL.Insert z l) p ↔
        BufferZoneLL.Cover l p ∨ BufferZone.Mem p z) ∧
      ((∀ w ∈ l, ¬ w.Touch z) → BufferZoneLL.Insert z l = l ++ [z])) ∧
    (∀ z1 z2 : BufferZone, z1.Touch z2 →
      BufferZoneLL.Insert z2 (BufferZoneLL.Insert z1 []) =
        [⟨min z1.Start z2.Start, max z1.End z2.End⟩]) := by
  constructor
  · intro l z h1 h2 hz h3
    obtain ⟨S1, S2, S3, S4⟩ := BufferZoneLL.Insert_spec z hz l h1 h2 h3
    exact ⟨S2, S1, S3,
      fun hnt => BufferZoneLL.Insert_append_of_not_touch z l h1 hnt⟩
  · exact BufferZoneLL.Insert_pair_empty

/-- C1 (witness): the amended theorem applied to the overlapping
release `[3,12)` into `{[0,5), [10,20)}` — the released zone overlaps
both free zones, which merge into one — and to the pair release
`[10,20)`, `[20,30)` into the empty free list. -/
theorem C1_release_amended_witness :
    ((BufferZoneLL.Insert ⟨3, 12⟩ [⟨0, 5⟩, ⟨10, 20⟩]).Pairwise
      (fun a b => ¬ a.Touch b) ∧
     BufferZoneLL.Insert ⟨3, 12⟩ [⟨0, 5⟩, ⟨10, 20⟩] = [⟨0, 20⟩]) ∧
    BufferZoneLL.Insert ⟨20, 30⟩ (BufferZoneLL.Insert ⟨10, 20⟩ []) =
      [⟨10, 30⟩] := by
  refine ⟨⟨?_, by decide⟩, ?_⟩
  · exact (C1_release_amended.1 [⟨0, 5⟩, ⟨10, 20⟩] ⟨3, 12⟩
      (by decide) (by decide) (by decide) (by decide)).1
  · exact (C1_release_amended.2 ⟨10, 20⟩ ⟨20, 30⟩ (by decide)).trans
      (by decide)

/-- C2: `Aquire` is a first-fit scan in list order.  If no zone is
large enough it returns the zero-length sentinel zone and leaves the
list unchanged; otherwise it returns the first zone of length at least
the requested size, carved off that zone's start with the zone shrunk
in place, splicing the zone out exactly when it became empty and is not
the first list entry.  In particular, on `{[0,10)}` after releasing
`[10,20)`, acquiring 5 returns `[0,5)` and leaves `{[5,20)}`. -/
theorem C2_aquire_first_fit :
    (∀ (l : List BufferZone) (s : Nat),
      (∀ z ∈ l, z.Len < s) →
      BufferZoneLL.Aquire s l = (⟨0, 0⟩, l)) ∧
    (∀ (l₁ : List BufferZone) (b : BufferZone) (l₂ : List BufferZone)
       (s : Nat),
      (∀ z ∈ l₁, z.Len < s) → s ≤ b.Len → b.Start ≤ b.End → b.End < U32 →
      BufferZoneLL.Aquire s (l₁ ++ b :: l₂) =
        (⟨b.Start, b.Start + s⟩,
         if b.Start + s = b.End ∧ l₁ ≠ [] then l₁ ++ l₂
         else l₁ ++ ⟨b.Start + s, b.End⟩ :: l₂)) ∧
    BufferZoneLL.Insert ⟨10, 20⟩ [⟨0, 10⟩] = [⟨0, 20⟩] ∧
    BufferZoneLL.Aquire 5 (BufferZoneLL.Insert ⟨10, 20⟩ [⟨0, 10⟩]) =
      (⟨0, 5⟩, [⟨5, 20⟩]) := by
  refine ⟨?_, ?_, by decide, by decide⟩
  · intro l s h
    exact BufferZoneLL.AquireAux_exhausted s l true h
  · intro l₁ b l₂ s h1 h2 h3 h4
    rw [BufferZoneLL.Aquire,
      BufferZoneLL.AquireAux_first_fit l₁ b l₂ s true h1 h2 h3 h4]
    by_cases hc : b.Start + s = b.End ∧ l₁ ≠ []
    · rw [if_pos ⟨hc.1, Or.inr hc.2⟩, if_pos hc]
    · rw [if_neg (fun hA => hc ⟨hA.1, hA.2.resolve_left (by simp)⟩),
        if_neg hc]

/-- C2 (witness): first-fit at the second zone of `{[0,2), [10,20)}`
with size 5 skips the too-small head and carves `[10,15)`. -/
theorem C2_aquire_first_fit_witness :
    BufferZoneLL.Aquire 5 [⟨0, 2⟩, ⟨10, 20⟩] =
      (⟨10, 15⟩, [⟨0, 2⟩, ⟨15, 20⟩]) := by
  have h := C2_aquire_first_fit.2.1 [⟨0, 2⟩] ⟨10, 20⟩ [] 5
    (by decide) (by decide) (by decide) (by decide)
  exact h.trans (by decide)

/-- C8: starting from any free list of well-formed pairwise-disjoint
zones, any sequence of `Aquire` calls with no intervening `Insert`
returns zones that are pairwise disjoint as sets of buffer positions
(zero-length results are empty sets, hence trivially disjoint). -/
theorem C8_sequential_aquire_disjoint (sizes : List Nat)
    (l : List BufferZone)
    (hwf : ∀ z ∈ l, z.Start ≤ z.End ∧ z.End < U32)
    (hdis : l.Pairwise BufferZone.ZDisj) :
    ((BufferZoneLL.AquireSeq sizes l).1).Pairwise BufferZone.ZDisj :=
  (BufferZoneLL.AquireSeq_spec sizes l hwf hdis).1

/-- C8 (witness): two acquisitions from `{[0,20)}` yield `[0,5)` and
`[5,12)`, pairwise disjoint. -/
theorem C8_sequential_aquire_disjoint_witness :
    ((BufferZoneLL.AquireSeq [5, 7] [⟨0, 20⟩]).1).Pairwise
      BufferZone.ZDisj ∧
    (BufferZoneLL.AquireSeq [5, 7] [⟨0, 20⟩]).1 = [⟨0, 5⟩, ⟨5, 12⟩] := by
  refine ⟨C8_sequential_aquire_disjoint [5, 7] [⟨0, 20⟩]
    (by decide) ?_, by decide⟩
  simp

/-- C10: on any non-empty free list (with representable head start),
`Aquire` with requested size 0 succeeds at the first list entry,
returning the zero-length zone at that entry's start and leaving the
list unchanged; the result has length 0, exactly like the zero-length
exhaustion sentinel, so the two are indistinguishable by the
check-the-length convention. -/
theorem C10_aquire_zero (b : BufferZone) (rest : List BufferZone)
    (h : b.Start < U32) :
    BufferZoneLL.Aquire 0 (b :: rest) = (⟨b.Start, b.Start⟩, b :: rest) ∧
    (⟨b.Start, b.Start⟩ : BufferZone).Len = 0 ∧
    (⟨0, 0⟩ : BufferZone).Len = 0 := by
  have hmod : (b.Start + 0) % U32 = b.Start := by
    rw [Nat.add_zero, Nat.mod_eq_of_lt h]
  refine ⟨?_, ?_, by decide⟩
  · rw [BufferZoneLL.Aquire,
      BufferZoneLL.AquireAux_fit true rest (Nat.zero_le _), hmod,
      if_neg (by simp)]
  · have hrw : b.Start + U32 - b.Start = U32 := by omega
    rw [BufferZone.Len, hrw, Nat.mod_self]

/-- C10 (witness): acquiring 0 from `{[3,10)}`. -/
theorem C10_aquire_zero_witness :
    BufferZoneLL.Aquire 0 [⟨3, 10⟩] = (⟨3, 3⟩, [⟨3, 10⟩]) ∧
    (⟨3, 3⟩ : BufferZone).Len = 0 ∧
    (⟨0, 0⟩ : BufferZone).Len = 0 :=
  C10_aquire_zero ⟨3, 10⟩ [] (by decide)

/-! ## Vertex layout codec (`VertexFlags`, polygraphics.go lines 51–207)

`VertexFlags` is `uint16` in Go; the codec functions only inspect bits
through masks, so the model uses `Nat` with bitwise operations. -/

abbrev VertexFlags := Nat

def Pos2D : VertexFlags := 0
def Pos3D : VertexFlags := 1
def PosMask : VertexFlags := 1
def Idx16 : VertexFlags := 0
def Idx32 : VertexFlags := 2
def IdxMask : VertexFlags := 2
def NoTex : VertexFlags := 0
def HasTex : VertexFlags := 4
def TexMask : VertexFlags := 4
def NoCol : VertexFlags := 0
def Col8 : VertexFlags := 8
def Col16 : VertexFlags := 16
def Col24 : VertexFlags := 24
def Col32 : VertexFlags := 32
def Col48 : VertexFlags := 40
def Col64 : VertexFlags := 48
def ColF : VertexFlags := 56
def ColFA : VertexFlags := 64
def ColMask : VertexFlags := 120
def NoEx : VertexFlags := 0
def Ex32 : VertexFlags := 128
def Ex64 : VertexFlags := 256
def Ex96 : VertexFlags := 384
def Ex128 : VertexFlags := 512
def Ex192 : VertexFlags := 640
def Ex224 : VertexFlags := 768
def Ex256 : VertexFlags := 896
def ExMask : VertexFlags := 896
def Tris : VertexFlags := 0
def Lines : VertexFlags := 1024
def Pixels : VertexFlags := 2048
def DrawMask : VertexFlags := 3072
def NoCam : VertexFlags := 0
def Cam2D : VertexFlags := 4096
def Cam3D : VertexFlags := 8192
def CamMask : VertexFlags := 12288
def NoNorms : VertexFlags := 0
def Norms : VertexFlags := 16384
def NormsMask : VertexFlags := 16384

def VertexAttributeMask : VertexFlags :=
  PosMask ||| ColMask ||| IdxMask ||| TexMask ||| ExMask ||| NormsMask

def UniformAttributeMask : VertexFlags := CamMask ||| DrawMask

def VertexFlags.SameAttributes (vf other : VertexFlags) : Bool :=
  (vf &&& VertexAttributeMask) == (other &&& VertexAttributeMask)

def VertexFlags.SameUniforms (vf other : VertexFlags) : Bool :=
  (vf &&& UniformAttributeMask) == (other &&& UniformAttributeMask)

def VertexFlags.PositionOffset (_vf : VertexFlags) : Nat := 0

def VertexFlags.PositionSize (vf : VertexFlags) : Nat :=
  if vf &&& PosMask = Pos3D then 12 else 8

def VertexFlags.NormalOffset (vf : VertexFlags) : Nat :=
  VertexFlags.PositionSize vf

def VertexFlags.NormalSize (vf : VertexFlags) : Nat :=
  if vf &&& NormsMask = NormsMask then
    if vf &&& PosMask = Pos3D then 12 else 8
  else 0

def VertexFlags.UVOffset (vf : VertexFlags) : Nat :=
  VertexFlags.NormalOffset vf + VertexFlags.NormalSize vf

def VertexFlags.UVSize (vf : VertexFlags) : Nat :=
  if vf &&& TexMask = HasTex then 8 else 0

def VertexFlags.ColorOffset (vf : VertexFlags) : Nat :=
  VertexFlags.UVOffset vf + VertexFlags.UVSize vf

def VertexFlags.ColorSize (vf : VertexFlags) : Nat :=
  if vf &&& ColMask = ColFA then 16
  else if vf &&& ColMask = ColF then 12
  else if vf &&& ColMask = Col64 then 8
  else if vf &&& ColMask = Col48 then 6
  else if vf &&& ColMask = Col32 then 4
  else if vf &&& ColMask = Col24 then 3
  else if vf &&& ColMask = Col16 then 2
  else if vf &&& ColMask = Col8 then 1
  else 0

def VertexFlags.ExOffset (vf : VertexFlags) : Nat :=
  VertexFlags.ColorOffset vf + VertexFlags.ColorSize vf

def VertexFlags.ExSize (vf : VertexFlags) : Nat :=
  if vf &&& ExMask = Ex256 then 32
  else if vf &&& ExMask = Ex224 then 28
  else if vf &&& ExMask = Ex192 then 24
  else if vf &&& ExMask = Ex128 then 16
  else if vf &&& ExMask = Ex96 then 12
  else if vf &&& ExMask = Ex64 then 8
  else if vf &&& ExMask = Ex32 then 4
  else 0

def VertexFlags.Stride (vf : VertexFlags) : Nat :=
  VertexFlags.PositionSize vf + VertexFlags.NormalSize vf +
    VertexFlags.UVSize vf + VertexFlags.ColorSize vf +
    VertexFlags.ExSize vf

/-! ## Claim theorems for the layout codec -/

/-- C5: for every flags value the codec decodes deterministically in
the fixed order Position, Normal, UV, Color, Extra: `PositionSize` is 8
(2D) or 12 (3D); `NormalSize` equals `PositionSize` when normals are
present, else 0; `UVSize` is 8 when textured, else 0; `ColorSize` lies
in `{0,1,2,3,4,6,8,12,16}`; `ExSize` is 4 bytes times a block count of
at most 8; each attribute's offset is the sum of the sizes of all
preceding attributes; and `Stride` is the sum of all five sizes — in
particular flags `{3D position, textured, 4-byte color, normals}` give
stride 36. -/
theorem C5_layout_codec (vf : VertexFlags) :
    (vf &&& PosMask = Pos2D → VertexFlags.PositionSize vf = 8) ∧
    (vf &&& PosMask = Pos3D → VertexFlags.PositionSize vf = 12) ∧
    (vf &&& NormsMask = Norms →
      VertexFlags.NormalSize vf = VertexFlags.PositionSize vf) ∧
    (vf &&& NormsMask = NoNorms → VertexFlags.NormalSize vf = 0) ∧
    (vf &&& TexMask = HasTex → VertexFlags.UVSize vf = 8) ∧
    (vf &&& TexMask = NoTex → VertexFlags.UVSize vf = 0) ∧
    (VertexFlags.PositionSize vf = 8 ∨ VertexFlags.PositionSize vf = 12) ∧
    (VertexFlags.ColorSize vf = 0 ∨ VertexFlags.ColorSize vf = 1 ∨
     VertexFlags.ColorSize vf = 2 ∨ VertexFlags.ColorSize vf = 3 ∨
     VertexFlags.ColorSize vf = 4 ∨ VertexFlags.ColorSize vf = 6 ∨
     VertexFlags.ColorSize vf = 8 ∨ VertexFlags.ColorSize vf = 12 ∨
     VertexFlags.ColorSize vf = 16) ∧
    (∃ k, k ≤ 8 ∧ VertexFlags.ExSize vf = 4 * k) ∧
    VertexFlags.PositionOffset vf = 0 ∧
    VertexFlags.NormalOffset vf =
      VertexFlags.PositionOffset vf + VertexFlags.PositionSize vf ∧
    VertexFlags.UVOffset vf =
      VertexFlags.NormalOffset vf + VertexFlags.NormalSize vf ∧
    VertexFlags.ColorOffset vf =
      VertexFlags.UVOffset vf + VertexFlags.UVSize vf ∧
    VertexFlags.ExOffset vf =
      VertexFlags.ColorOffset vf + VertexFlags.ColorSize vf ∧
    VertexFlags.Stride vf =
      VertexFlags.PositionSize vf + VertexFlags.NormalSize vf +
        VertexFlags.UVSize vf + VertexFlags.ColorSize vf +
        VertexFlags.ExSize vf ∧
    VertexFlags.Stride (Pos3D ||| HasTex ||| Col32 ||| Norms) = 36 := by
  refine ⟨?_, ?_, ?_, ?_, ?_, ?_, ?_, ?_, ?_, rfl,
    by simp [VertexFlags.NormalOffset, VertexFlags.PositionOffset],
    rfl, rfl, rfl, rfl, by decide⟩
  · intro h
    rw [VertexFlags.PositionSize, h, if_neg (by decide)]
  · intro h
    rw [VertexFlags.PositionSize, if_pos h]
  · intro h
    rw [VertexFlags.NormalSize, VertexFlags.PositionSize,
      if_pos (show vf &&& NormsMask = NormsMask from h)]
  · intro h
    rw [VertexFlags.NormalSize, h, if_neg (by decide)]
  · intro h
    rw [VertexFlags.UVSize, if_pos h]
  · intro h
    rw [VertexFlags.UVSize, h, if_neg (by decide)]
  · rw [VertexFlags.PositionSize]
    split_ifs <;> simp
  · rw [VertexFlags.ColorSize]
    split_ifs <;> simp
  · rw [VertexFlags.ExSize]
    split_ifs
    · exact ⟨8, by omega⟩
    · exact ⟨7, by omega⟩
    · exact ⟨6, by omega⟩
    · exact ⟨4, by omega⟩
    · exact ⟨3, by omega⟩
    · exact ⟨2, by omega⟩
    · exact ⟨1, by omega⟩
    · exact ⟨0, by omega⟩

/-- C5 (witness): the codec evaluated at the example flags value
`Pos3D ||| HasTex ||| Col32 ||| Norms = 16421`. -/
theorem C5_layout_codec_witness :
    VertexFlags.PositionSize 16421 = 12 ∧ VertexFlags.UVSize 16421 = 8 ∧
    VertexFlags.Stride 16421 = 36 := by
  have h := C5_layout_codec 16421
  exact ⟨h.2.1 (by decide), h.2.2.2.2.1 (by decide),
    h.2.2.2.2.2.2.2.2.2.2.2.2.2.2.2⟩

/-- Masks agreeing on the low 15 bits agree after conjunction with any
mask contained in the low 15 bits. -/
theorem VertexFlags.land_low_eq {x y m : Nat} (hm : 32767 &&& m = m)
    (h : x &&& 32767 = y &&& 32767) : x &&& m = y &&& m := by
  calc x &&& m = x &&& (32767 &&& m) := by rw [hm]
    _ = x &&& 32767 &&& m := by rw [Nat.land_assoc]
    _ = y &&& 32767 &&& m := by rw [h]
    _ = y &&& (32767 &&& m) := by rw [Nat.land_assoc]
    _ = y &&& m := by rw [hm]

/-- C9: `SameAttributes` and `SameUniforms` both ignore the unused high
bit (value 32768, `_un4`): any two flags values agreeing on all other
bits (i.e. on the low 15 bits) are reported both attribute-compatible
and uniform-compatible, and the two masks together cover exactly the
low 15 bits, leaving bit 15 uncovered. -/
theorem C9_unused_high_bit (a b : VertexFlags)
    (h : a &&& 32767 = b &&& 32767) :
    VertexFlags.SameAttributes a b = true ∧
    VertexFlags.SameUniforms a b = true ∧
    VertexAttributeMask ||| UniformAttributeMask = 32767 ∧
    32768 &&& (VertexAttributeMask ||| UniformAttributeMask) = 0 := by
  refine ⟨?_, ?_, by decide, by decide⟩
  · have h1 : a &&& VertexAttributeMask = b &&& VertexAttributeMask := by
      have hm : 32767 &&& VertexAttributeMask = VertexAttributeMask := by
        decide
      exact VertexFlags.land_low_eq hm h
    simp [VertexFlags.SameAttributes, h1]
  · have h1 : a &&& UniformAttributeMask = b &&& UniformAttributeMask := by
      have hm : 32767 &&& UniformAttributeMask = UniformAttributeMask := by
        decide
      exact VertexFlags.land_low_eq hm h
    simp [VertexFlags.SameUniforms, h1]

/-- C9 (witness): flags `32768` and `0` differ exactly in the unused
high bit and are reported compatible both ways. -/
theorem C9_unused_high_bit_witness :
    VertexFlags.SameAttributes 32768 0 = true ∧
    VertexFlags.SameUniforms 32768 0 = true := by
  have h := C9_unused_high_bit 32768 0 (by decide)
  exact ⟨h.1, h.2.1⟩

/-! ## Shape tessellator (polygraphics.go)

The tessellator writes vertices one at a time through the backend
boundary `UpdateVertexInShape`.  Vertex payloads are computed with
external float32 geometry libraries (`gengeom`, `genvecs`) and are
abstracted away except where a claim depends on them (the quad-outline
corner selection, which is pure corner plumbing); each model returns
the composite `DeepError` together with the ordered list of per-vertex
writes it performed. -/

/-- Modelled from the spec: `DeepError` lives in the external
`github.com/gabe-lee/genutils` dependency.  Per the spec it is a
chainable composite error carrying a descriptive tag; adding a child
error records it and marks the parent as an error, adding a non-error
leaves the parent unchanged.  `NewDeepError` creates an error-state
node (the source immediately clears `IsErr` when it wants an
accumulator). -/
structure DeepError where
  IsErr : Bool
  Msg : String
  Children : List DeepError

def NewDeepError (msg : String) : DeepError := ⟨true, msg, []⟩

/-- Modelled from the spec: accumulate a child into a composite error
(genutils external). -/
def DeepError.AddChildDeepError (parent child : DeepError) : DeepError :=
  if child.IsErr then ⟨true, parent.Msg, parent.Children ++ [child]⟩
  else parent

/-- `ShapePrototype` from polygraphics.go. -/
structure ShapePrototype where
  VertCount : Nat
  IndexCount : Nat
  Indexes : List Nat
deriving DecidableEq

/-- `BatchShape` from polygraphics.go. -/
structure BatchShape where
  BatchID : Nat
  IndexZone : BufferZone
  VertexZone : BufferZone
  IndexCount : Nat
  VertexCount : Nat
deriving DecidableEq

/-- The backend boundary (`GraphicsInterface`): the model keeps the two
methods the claims depend on.  The error returned by a vertex write may
depend on the target shape and the local vertex index (the written
payload is float geometry and is abstracted away). -/
structure Backend where
  AllocateShapeInBatch : Nat → ShapePrototype → BatchShape × DeepError
  UpdateVertexInShape : BatchShape → Nat → DeepError

/-- Accumulate the backend errors of a sequence of vertex writes, in
order, exactly as the repeated `dErr.AddChildDeepError(
g.UpdateVertexInShape(shape, i, v))` lines do. -/
def Backend.writeAll (g : Backend) (shape : BatchShape) (d : DeepError)
    (idxs : List Nat) : DeepError :=
  idxs.foldl (fun acc i => acc.AddChildDeepError (g.UpdateVertexInShape shape i)) d

/-- `GraphicsProvider.UpdateLine2D` (polygraphics.go lines 292–317):
validates the handle's dimensions, then writes local vertices 0–3 (the
two perpendicular offsets of each endpoint), accumulating every
per-vertex backend error. -/
def GraphicsProvider.UpdateLine2D (g : Backend) (shape : BatchShape) :
    DeepError × List Nat :=
  if shape.IndexCount ≠ 6 ∨ shape.VertexCount ≠ 4 then
    (NewDeepError "[PolyApp] UpdateLine2D(): batch shape provided does not have required dimensions for a line", [])
  else
    (g.writeAll shape ⟨false, "[PolyApp] UpdateLine2D():", []⟩ [0, 1, 2, 3],
     [0, 1, 2, 3])

/-- `GraphicsProvider.UpdateTriangle2D` (lines 342–352). -/
def GraphicsProvider.UpdateTriangle2D (g : Backend) (shape : BatchShape) :
    DeepError × List Nat :=
  if shape.VertexCount ≠ 3 ∨ shape.IndexCount ≠ 3 then
    (NewDeepError "[PolyApp] UpdateTriangle2D(): batch slice provided does not have required dimensions for a triangle", [])
  else
    (g.writeAll shape ⟨false, "[PolyApp] UpdateTriangle2D():", []⟩ [0, 1, 2],
     [0, 1, 2])

/-- `GraphicsProvider.UpdateQuad2D` (lines 503–527). -/
def GraphicsProvider.UpdateQuad2D (g : Backend) (shape : BatchShape) :
    DeepError × List Nat :=
  if shape.VertexCount ≠ 4 ∨ shape.IndexCount ≠ 6 then
    (NewDeepError "[PolyApp] UpdateQuad2D(): batch shape provided does not have required dimensions for a quad", [])
  else
    (g.writeAll shape ⟨false, "[PolyApp] UpdateQuad2D():", []⟩ [0, 1, 2, 3],
     [0, 1, 2, 3])

/-- `GraphicsProvider.UpdateRegularPolygon2D` (lines 384–400): writes
the center at local vertex 0, then one ring vertex per side (the ring
point count of the external `geom.PointsOnCircle` is `sides`, per the
spec's `sides+1` vertex table). -/
def GraphicsProvider.UpdateRegularPolygon2D (g : Backend)
    (shape : BatchShape) (sides : Nat) : DeepError × List Nat :=
  if shape.VertexCount ≠ sides + 1 ∨ shape.IndexCount ≠ sides * 3 then
    (NewDeepError "[PolyApp] UpdateRegularPolygon2D(): batch shape provided does not have required dimensions for a polygon of specified sides", [])
  else
    (g.writeAll shape ⟨false, "[PolyApp] UpdateRegularPolygon2D():", []⟩
      (0 :: (List.range sides).map (· + 1)),
     0 :: (List.range sides).map (· + 1))

/-- `GraphicsProvider.UpdateRegularPolygonRing2D` (lines 432–447):
writes one vertex per ring point (the point count of the external
`geom.PointsOnRing` is `2*sides`, per the spec's `2·sides` vertex
table). -/
def GraphicsProvider.UpdateRegularPolygonRing2D (g : Backend)
    (shape : BatchShape) (sides : Nat) : DeepError × List Nat :=
  if shape.VertexCount ≠ sides * 2 ∨ shape.IndexCount ≠ sides * 6 then
    (NewDeepError "[PolyApp] UpdateRegularPolygonRing2D(): batch shape provided does not have required dimensions for a polygon ring of specified sides", [])
  else
    (g.writeAll shape ⟨false, "[PolyApp] UpdateRegularPolygonRing2D():", []⟩
      (List.range (2 * sides)),
     List.range (2 * sides))

/-- A 2D quad as the tessellator uses it: four corner accessors
`A`–`D` (external `genvecs` type; corners abstract). -/
structure Quad (α : Type) where
  A : α
  B : α
  C : α
  D : α
deriving DecidableEq

/-- One vertex write of the quad-outline builder: local vertex number,
position corner and UV corner (color and extra are passed through
unchanged to all eight vertices and are omitted). -/
structure OutlineWrite (α : Type) where
  vertNumber : Nat
  Pos : α
  UV : α
deriving DecidableEq

/-- `GraphicsProvider.UpdateQuadOutline2D` (polygraphics.go lines
558–594), with the exact corner selection of the source: vertex 0 gets
`quadInner.A`, vertices 1–3 all get `quadInner.B`, and vertices 4–7 all
get `quadOuter.B` (lines 571–592). -/
def GraphicsProvider.UpdateQuadOutline2D {α : Type} (g : Backend)
    (shape : BatchShape) (quadInner quadOuter : Quad α)
    (uvQuadInner uvQuadOuter : Quad α) :
    DeepError × List (OutlineWrite α) :=
  if shape.VertexCount ≠ 8 ∨ shape.IndexCount ≠ 24 then
    (NewDeepError "[PolyApp] UpdateQuadOutline2D(): batch shape provided does not have required dimensions for a quad outline", [])
  else
    (g.writeAll shape ⟨false, "[PolyApp] UpdateQuadOutline2D():", []⟩
      [0, 1, 2, 3, 4, 5, 6, 7],
     [⟨0, quadInner.A, uvQuadInner.A⟩,
      ⟨1, quadInner.B, uvQuadInner.B⟩,
      ⟨2, quadInner.B, uvQuadInner.B⟩,
      ⟨3, quadInner.B, uvQuadInner.B⟩,
      ⟨4, quadOuter.B, uvQuadOuter.B⟩,
      ⟨5, quadOuter.B, uvQuadOuter.B⟩,
      ⟨6, quadOuter.B, uvQuadOuter.B⟩,
      ⟨7, quadOuter.B, uvQuadOuter.B⟩])

/-- The index-filling loop of `AddRegularPolygonRing2D` (polygraphics.go
lines 409–416): for each segment, emit `{v, v+1, v+2, v, v+3, v+2}` and
advance `v` by 2. -/
def GraphicsProvider.ringIdxLoop : Nat → Nat → List Nat
  | 0, _ => []
  | k + 1, v =>
    v :: (v + 1) :: (v + 2) :: v :: (v + 3) :: (v + 2) ::
      GraphicsProvider.ringIdxLoop k (v + 2)

/-- The full index list built by `AddRegularPolygonRing2D` (lines
405–418): the segment loop followed by the two tail patches
`idx[iCount-2] = 1` and `idx[iCount-1] = 0`. -/
def GraphicsProvider.ringIndexes (sides : Nat) : List Nat :=
  ((GraphicsProvider.ringIdxLoop sides 0).set (6 * sides - 2) 1).set
    (6 * sides - 1) 0

/-- `GraphicsProvider.AddRegularPolygonRing2D` (lines 402–430): builds
the ring prototype, allocates through the backend boundary, then
delegates to `UpdateRegularPolygonRing2D`.  The source adds the
update's composite error to its local `dErr` but returns `err` — the
allocation error value — so the model faithfully returns `err`. -/
def GraphicsProvider.AddRegularPolygonRing2D (g : Backend)
    (batchID : Nat) (sides : Nat) : BatchShape × DeepError :=
  let r := g.AllocateShapeInBatch batchID
    ⟨2 * sides, 6 * sides, GraphicsProvider.ringIndexes sides⟩
  if r.2.IsErr then
    (r.1, r.2)
  else
    let _dErr := (⟨false, "[PolyApp] AddRegularPolygonRing2D():", []⟩ :
      DeepError).AddChildDeepError
      (GraphicsProvider.UpdateRegularPolygonRing2D g r.1 sides).1
    (r.1, r.2)

/-! ## Concrete fixtures for evaluating the tessellator models -/

/-- A backend whose vertex writes always succeed. -/
def okBackend : Backend :=
  ⟨fun _ _ => (⟨0, ⟨0, 0⟩, ⟨0, 0⟩, 0, 0⟩, ⟨false, "", []⟩),
   fun _ _ => ⟨false, "", []⟩⟩

/-- A backend that allocates a ring-of-6 handle successfully but whose
vertex writes always fail. -/
def failingBackend : Backend :=
  ⟨fun _ _ => (⟨0, ⟨0, 36⟩, ⟨0, 12⟩, 36, 12⟩, ⟨false, "", []⟩),
   fun _ _ => ⟨true, "backend write failure", []⟩⟩

/-- A handle with the quad-outline dimensions (8 vertices, 24
indices). -/
def outlineShape : BatchShape := ⟨0, ⟨0, 24⟩, ⟨0, 8⟩, 24, 8⟩

/-- A handle with the ring-of-6 dimensions (12 vertices, 36 indices). -/
def ringShape6 : BatchShape := ⟨0, ⟨0, 36⟩, ⟨0, 12⟩, 36, 12⟩

/-- A handle whose vertex and index counts are both zero. -/
def zeroShape : BatchShape := ⟨0, ⟨0, 0⟩, ⟨0, 0⟩, 0, 0⟩

/-! ## Claim theorems for the tessellator -/

/-- C3: the quad-outline builder does not write four distinct inner and
four distinct outer corners.  Evaluated on inner corners `0,1,2,3`
(UVs `20..23`) and outer corners `10,11,12,13` (UVs `30..33`), the
source writes `quadInner.B` to local vertices 1, 2 and 3 and
`quadOuter.B` to local vertices 4–7, so the produced writes differ from
the claimed distinct-corner layout `A,B,C,D` / `A,B,C,D`. -/
theorem C3_quad_outline_corner_defect :
    (GraphicsProvider.UpdateQuadOutline2D okBackend outlineShape
      ⟨0, 1, 2, 3⟩ ⟨10, 11, 12, 13⟩ ⟨20, 21, 22, 23⟩ ⟨30, 31, 32, 33⟩).2 =
      [⟨0, 0, 20⟩, ⟨1, 1, 21⟩, ⟨2, 1, 21⟩, ⟨3, 1, 21⟩,
       ⟨4, 11, 31⟩, ⟨5, 11, 31⟩, ⟨6, 11, 31⟩, ⟨7, 11, 31⟩] ∧
    ¬ (GraphicsProvider.UpdateQuadOutline2D okBackend outlineShape
      ⟨0, 1, 2, 3⟩ ⟨10, 11, 12, 13⟩ ⟨20, 21, 22, 23⟩ ⟨30, 31, 32, 33⟩).2 =
      [⟨0, 0, 20⟩, ⟨1, 1, 21⟩, ⟨2, 2, 22⟩, ⟨3, 3, 23⟩,
       ⟨4, 10, 30⟩, ⟨5, 11, 31⟩, ⟨6, 12, 32⟩, ⟨7, 13, 33⟩] := by
  exact ⟨by decide, by decide⟩

/-- C4: the ring prototype for `sides = 6` has the expected counts (12
vertices, 36 indices), but its index list is not made of valid vertex
indices only: the tail patches fix positions 34 and 35, yet position 32
(the third index of the final segment's first triangle) keeps the value
`2*sides = 12`, which is out of range — the final segment does not
fully close the loop back to vertices 0/1. -/
theorem C4_ring_prototype_defect :
    GraphicsProvider.ringIndexes 6 =
      [0, 1, 2, 0, 3, 2, 2, 3, 4, 2, 5, 4, 4, 5, 6, 4, 7, 6,
       6, 7, 8, 6, 9, 8, 8, 9, 10, 8, 11, 10, 10, 11, 12, 10, 1, 0] ∧
    (GraphicsProvider.ringIndexes 6).length = 6 * 6 ∧
    (GraphicsProvider.ringIndexes 6)[32]? = some 12 ∧
    ¬ (∀ x ∈ GraphicsProvider.ringIndexes 6, x < 2 * 6) := by
  refine ⟨by decide, by decide, by decide, by decide⟩

/-- C6: per-vertex backend errors are accumulated by the `Update` side
but dropped by `AddRegularPolygonRing2D`.  Against a backend whose
writes all fail, `UpdateRegularPolygonRing2D` returns a composite error
with all 12 per-vertex failures, while `AddRegularPolygonRing2D` —
which runs that same update — returns the allocation error value
(`err` instead of its local `dErr`): no error flag, no children. -/
theorem C6_add_ring_drops_update_errors :
    (GraphicsProvider.UpdateRegularPolygonRing2D failingBackend
      ringShape6 6).1.IsErr = true ∧
    (GraphicsProvider.UpdateRegularPolygonRing2D failingBackend
      ringShape6 6).1.Children.length = 12 ∧
    (GraphicsProvider.AddRegularPolygonRing2D failingBackend 0 6).2.IsErr
      = false ∧
    (GraphicsProvider.AddRegularPolygonRing2D failingBackend 0 6).2.Children
      = [] := by
  exact ⟨rfl, rfl, rfl, rfl⟩

/-- C7: every shape-kind `Update` operation validates the handle's
vertex/index counts first and, on a mismatch, returns the descriptive
dimension error immediately with no `UpdateVertexInShape` write
performed. -/
theorem C7_update_dimension_validation (g : Backend) (shape : BatchShape) :
    (shape.IndexCount ≠ 6 ∨ shape.VertexCount ≠ 4 →
      GraphicsProvider.UpdateLine2D g shape =
        (NewDeepError "[PolyApp] UpdateLine2D(): batch shape provided does not have required dimensions for a line", [])) ∧
    (shape.VertexCount ≠ 3 ∨ shape.IndexCount ≠ 3 →
      GraphicsProvider.UpdateTriangle2D g shape =
        (NewDeepError "[PolyApp] UpdateTriangle2D(): batch slice provided does not have required dimensions for a triangle", [])) ∧
    (shape.VertexCount ≠ 4 ∨ shape.IndexCount ≠ 6 →
      GraphicsProvider.UpdateQuad2D g shape =
        (NewDeepError "[PolyApp] UpdateQuad2D(): batch shape provided does not have required dimensions for a quad", [])) ∧
    (∀ sides : Nat,
      shape.VertexCount ≠ sides + 1 ∨ shape.IndexCount ≠ sides * 3 →
      GraphicsProvider.UpdateRegularPolygon2D g shape sides =
        (NewDeepError "[PolyApp] UpdateRegularPolygon2D(): batch shape provided does not have required dimensions for a polygon of specified sides", [])) ∧
    (∀ sides : Nat,
      shape.VertexCount ≠ sides * 2 ∨ shape.IndexCount ≠ sides * 6 →
      GraphicsProvider.UpdateRegularPolygonRing2D g shape sides =
        (NewDeepError "[PolyApp] UpdateRegularPolygonRing2D(): batch shape provided does not have required dimensions for a polygon ring of specified sides", [])) ∧
    (∀ quadInner quadOuter uvQuadInner uvQuadOuter : Quad Nat,
      shape.VertexCount ≠ 8 ∨ shape.IndexCount ≠ 24 →
      GraphicsProvider.UpdateQuadOutline2D g shape quadInner quadOuter
          uvQuadInner uvQuadOuter =
        (NewDeepError "[PolyApp] UpdateQuadOutline2D(): batch shape provided does not have required dimensions for a quad outline", [])) := by
  refine ⟨?_, ?_, ?_, ?_, ?_, ?_⟩
  · intro h
    rw [GraphicsProvider.UpdateLine2D, if_pos h]
  · intro h
    rw [GraphicsProvider.UpdateTriangle2D, if_pos h]
  · intro h
    rw [GraphicsProvider.UpdateQuad2D, if_pos h]
  · intro sides h
    rw [GraphicsProvider.UpdateRegularPolygon2D, if_pos h]
  · intro sides h
    rw [GraphicsProvider.UpdateRegularPolygonRing2D, if_pos h]
  · intro quadInner quadOuter uvQuadInner uvQuadOuter h
    rw [GraphicsProvider.UpdateQuadOutline2D, if_pos h]

/-- C7 (witness): all six validations evaluated against a handle with
zero vertex/index counts. -/
theorem C7_update_dimension_validation_witness :
    GraphicsProvider.UpdateLine2D okBackend zeroShape =
      (NewDeepError "[PolyApp] UpdateLine2D(): batch shape provided does not have required dimensions for a line", []) ∧
    GraphicsProvider.UpdateTriangle2D okBackend zeroShape =
      (NewDeepError "[PolyApp] UpdateTriangle2D(): batch slice provided does not have required dimensions for a triangle", []) ∧
    GraphicsProvider.UpdateQuad2D okBackend zeroShape =
      (NewDeepError "[PolyApp] UpdateQuad2D(): batch shape provided does not have required dimensions for a quad", []) ∧
    GraphicsProvider.UpdateRegularPolygon2D okBackend zeroShape 1 =
      (NewDeepError "[PolyApp] UpdateRegularPolygon2D(): batch shape provided does not have required dimensions for a polygon of specified sides", []) ∧
    GraphicsProvider.UpdateRegularPolygonRing2D okBackend zeroShape 1 =
      (NewDeepError "[PolyApp] UpdateRegularPolygonRing2D(): batch shape provided does not have required dimensions for a polygon ring of specified sides", []) ∧
    GraphicsProvider.UpdateQuadOutline2D okBackend zeroShape
        ⟨0, 0, 0, 0⟩ ⟨0, 0, 0, 0⟩ ⟨0, 0, 0, 0⟩ ⟨0, 0, 0, 0⟩ =
      (NewDeepError "[PolyApp] UpdateQuadOutline2D(): batch shape provided does not have required dimensions for a quad outline", []) := by
  have h := C7_update_dimension_validation okBackend zeroShape
  exact ⟨h.1 (by decide), h.2.1 (by decide), h.2.2.1 (by decide),
    h.2.2.2.1 1 (by decide), h.2.2.2.2.1 1 (by decide),
    h.2.2.2.2.2 ⟨0, 0, 0, 0⟩ ⟨0, 0, 0, 0⟩ ⟨0, 0, 0, 0⟩ ⟨0, 0, 0, 0⟩
      (by decide)⟩
